import Mathlib

/-!
A shallow embedding of src/src/DataManipulator.ts. JavaScript numbers are
modelled as exact rationals, Date timestamps as integers, and the static
movingAverageQueue as an explicit List argument that every call takes and
returns. The JS Array reduce without a seed throws on an empty array; that
partiality is modelled with Option.
-/

namespace DataManipulator

/-- The signal union type of DataManipulator.ts: BUY, SELL or HOLD
(undefined is modelled as Option.none at use sites). -/
inductive Signal where
  | BUY
  | SELL
  | HOLD
deriving DecidableEq, Repr

/-- One side of the order book as DataManipulator reads it: the top order
price (top_ask.price and top_bid.price of a ServerRespond). -/
structure TopOrder where
  price : ℚ
deriving DecidableEq, Repr

/-- A server response for one instrument, restricted to the fields
DataManipulator reads: top ask, top bid and a timestamp (a Date, modelled
as an integer). -/
structure ServerRespond where
  top_ask : TopOrder
  top_bid : TopOrder
  timestamp : ℤ
deriving DecidableEq, Repr

/-- The Row interface, lines 3-13: the output record of generateRow.
Fields typed number-or-undefined become Option. -/
structure Row where
  price_abc : ℚ
  price_def : ℚ
  ratio : ℚ
  timestamp : ℤ
  upper_bound : ℚ
  lower_bound : ℚ
  trigger_alert : Option ℚ
  moving_average : ℚ
  signal : Option Signal
deriving DecidableEq, Repr

/-- MOVING_AVERAGE_WINDOW, line 16: the number of data points kept for the
moving average. -/
def MOVING_AVERAGE_WINDOW : ℕ := 10

/-- THRESHOLD, line 17: the 5 percent band around 1 for the bounds. -/
def THRESHOLD : ℚ := 5 / 100

/-- calculateMidPrice, lines 55-57: the average of the top ask and top bid
prices. The source performs no validation of the prices. -/
def calculateMidPrice (data : ServerRespond) : ℚ :=
  (data.top_ask.price + data.top_bid.price) / 2

/-- getLatestTimestamp, lines 64-67: the first timestamp when it is strictly
greater than the second, the second otherwise. -/
def getLatestTimestamp (s0 s1 : ServerRespond) : ℤ :=
  if s0.timestamp > s1.timestamp then s0.timestamp else s1.timestamp

/-- Array.prototype.reduce with callback (a, b) => a + b and no initial
value, as used on line 79: it throws on an empty array (modelled as none)
and otherwise folds the sum from the first element. -/
def reduceSum : List ℚ → Option ℚ
  | [] => none
  | x :: xs => some (xs.foldl (fun a b => a + b) x)

/-- Lines 75-78 of updateMovingAverage: push the ratio onto the queue and,
when the length now exceeds MOVING_AVERAGE_WINDOW, shift off the single
oldest entry. -/
def pushTrim (r : ℚ) (queue : List ℚ) : List ℚ :=
  if MOVING_AVERAGE_WINDOW < (queue ++ [r]).length then (queue ++ [r]).tail
  else queue ++ [r]

/-- updateMovingAverage, lines 74-80: mutate the queue via pushTrim, then
return reduce of the queue divided by its length. The static
movingAverageQueue is the explicit second argument and second component of
the result; the Option models the reduce throw on an empty queue. -/
def updateMovingAverage (r : ℚ) (queue : List ℚ) : Option ℚ × List ℚ :=
  (Option.map (fun s => s / ((pushTrim r queue).length : ℚ)) (reduceSum (pushTrim r queue)),
   pushTrim r queue)

/-- generateSignal, lines 90-99: SELL when the ratio strictly exceeds both
the upper bound and the moving average; else BUY when it is strictly below
both the lower bound and the moving average; else HOLD when it strictly
breaches either bound; else undefined. -/
def generateSignal (r movingAverage upperBound lowerBound : ℚ) : Option Signal :=
  if r > upperBound ∧ r > movingAverage then some Signal.SELL
  else if r < lowerBound ∧ r < movingAverage then some Signal.BUY
  else if r > upperBound ∨ r < lowerBound then some Signal.HOLD
  else none

/-- generateRow, lines 25-47: mid prices of the two responses, their ratio
(the source divides with no guard against a zero denominator), the moving
average update, the fixed bounds, the signal, and the assembled Row. The
Option.map propagates the only possible throw (reduce on an empty queue);
the queue is mutated by the push in either case. -/
def generateRow (s0 s1 : ServerRespond) (queue : List ℚ) : Option Row × List ℚ :=
  let priceABC := calculateMidPrice s0
  let priceDEF := calculateMidPrice s1
  let ratio := priceABC / priceDEF
  let upperBound := 1 + THRESHOLD
  let lowerBound := 1 - THRESHOLD
  ((updateMovingAverage ratio queue).1.map (fun movingAverage =>
    { price_abc := priceABC
      price_def := priceDEF
      ratio := ratio
      timestamp := getLatestTimestamp s0 s1
      upper_bound := upperBound
      lower_bound := lowerBound
      trigger_alert := if ratio > upperBound ∨ ratio < lowerBound then some ratio else none
      moving_average := movingAverage
      signal := generateSignal ratio movingAverage upperBound lowerBound }),
   (updateMovingAverage ratio queue).2)

/-- The moving-average window after a sequence of pushes starting from the
empty window, each push performed by updateMovingAverage. -/
def pushSeq (rs : List ℚ) : List ℚ :=
  rs.foldl (fun w r => (updateMovingAverage r w).2) []

/-- Modelled from the spec: the PriceNormalizer contract of section 4.1,
which is absent from calculateMidPrice in the source. Prices must be
non-negative (the finiteness clause is vacuous for exact rationals);
otherwise the call fails with InvalidQuote, modelled as none. -/
def midPriceContract (data : ServerRespond) : Option ℚ :=
  if data.top_ask.price < 0 ∨ data.top_bid.price < 0 then none
  else some ((data.top_ask.price + data.top_bid.price) / 2)

/-- Sample response with mid price 99, used at concrete inputs. -/
def sampleA : ServerRespond := ⟨⟨100⟩, ⟨98⟩, 5⟩

/-- Sample response with mid price 89, used at concrete inputs. -/
def sampleB : ServerRespond := ⟨⟨90⟩, ⟨88⟩, 3⟩

/-- Sample response whose mid price is 0: both top prices are 0. -/
def zeroMidQuote : ServerRespond := ⟨⟨0⟩, ⟨0⟩, 3⟩

/-- Sample response with a negative bid price, so its mid price is -1. -/
def negQuote : ServerRespond := ⟨⟨2⟩, ⟨-4⟩, 0⟩

/-- The row generateRow produces from sampleA, sampleB and an empty queue. -/
def rowAB : Row :=
  { price_abc := 99
    price_def := 89
    ratio := 99 / 89
    timestamp := 5
    upper_bound := 1 + THRESHOLD
    lower_bound := 1 - THRESHOLD
    trigger_alert := some (99 / 89)
    moving_average := 99 / 89
    signal := some Signal.HOLD }

theorem foldl_add (xs : List ℚ) : ∀ a : ℚ, xs.foldl (fun p q => p + q) a = a + xs.sum := by
  induction xs with
  | nil => intro a; simp
  | cons y ys ih =>
    intro a
    simp only [List.foldl_cons, List.sum_cons, ih]
    ring

theorem reduceSum_eq_sum (l : List ℚ) (h : l ≠ []) : reduceSum l = some l.sum := by
  cases l with
  | nil => exact absurd rfl h
  | cons x xs => simp [reduceSum, foldl_add]

theorem pushTrim_length (r : ℚ) (q : List ℚ) :
    (pushTrim r q).length =
      if MOVING_AVERAGE_WINDOW ≤ q.length then q.length else q.length + 1 := by
  unfold pushTrim
  split_ifs with hc hle <;>
    simp only [List.length_tail, List.length_append, List.length_cons, List.length_nil]
      at hc ⊢ <;>
    omega

theorem pushTrim_length_pos (r : ℚ) (q : List ℚ) : 1 ≤ (pushTrim r q).length := by
  rw [pushTrim_length]
  have hW : MOVING_AVERAGE_WINDOW = 10 := rfl
  split_ifs <;> omega

theorem pushTrim_ne_nil (r : ℚ) (q : List ℚ) : pushTrim r q ≠ [] := by
  intro h
  have hp := pushTrim_length_pos r q
  rw [h] at hp
  simp at hp

theorem pushTrim_length_le (r : ℚ) (q : List ℚ) (h : q.length ≤ MOVING_AVERAGE_WINDOW) :
    (pushTrim r q).length ≤ MOVING_AVERAGE_WINDOW := by
  rw [pushTrim_length]
  split_ifs <;> omega

theorem updateMovingAverage_eq (r : ℚ) (q : List ℚ) :
    updateMovingAverage r q =
      (some ((pushTrim r q).sum / ((pushTrim r q).length : ℚ)), pushTrim r q) := by
  simp [updateMovingAverage, reduceSum_eq_sum _ (pushTrim_ne_nil r q)]

theorem generateRow_eq (s0 s1 : ServerRespond) (q : List ℚ) :
    generateRow s0 s1 q =
      (some
        { price_abc := calculateMidPrice s0
          price_def := calculateMidPrice s1
          ratio := calculateMidPrice s0 / calculateMidPrice s1
          timestamp := getLatestTimestamp s0 s1
          upper_bound := 1 + THRESHOLD
          lower_bound := 1 - THRESHOLD
          trigger_alert :=
            if calculateMidPrice s0 / calculateMidPrice s1 > 1 + THRESHOLD ∨
                calculateMidPrice s0 / calculateMidPrice s1 < 1 - THRESHOLD then
              some (calculateMidPrice s0 / calculateMidPrice s1)
            else none
          moving_average :=
            (pushTrim (calculateMidPrice s0 / calculateMidPrice s1) q).sum /
              (((pushTrim (calculateMidPrice s0 / calculateMidPrice s1) q).length : ℚ))
          signal :=
            generateSignal (calculateMidPrice s0 / calculateMidPrice s1)
              ((pushTrim (calculateMidPrice s0 / calculateMidPrice s1) q).sum /
                (((pushTrim (calculateMidPrice s0 / calculateMidPrice s1) q).length : ℚ)))
              (1 + THRESHOLD) (1 - THRESHOLD) },
       pushTrim (calculateMidPrice s0 / calculateMidPrice s1) q) := by
  simp [generateRow, updateMovingAverage_eq]

theorem pushTrim_all_eq (r : ℚ) (q : List ℚ) (h : ∀ x ∈ q, x = r) :
    ∀ x ∈ pushTrim r q, x = r := by
  intro x hx
  unfold pushTrim at hx
  split_ifs at hx with hc
  · have hx2 := List.mem_of_mem_tail hx
    rcases List.mem_append.mp hx2 with h1 | h2
    · exact h x h1
    · simpa using h2
  · rcases List.mem_append.mp hx with h1 | h2
    · exact h x h1
    · simpa using h2

theorem sum_all_eq (r : ℚ) : ∀ l : List ℚ, (∀ x ∈ l, x = r) → l.sum = (l.length : ℚ) * r := by
  intro l
  induction l with
  | nil => intro _; simp
  | cons x xs ih =>
    intro h
    have hx : x = r := h x (List.mem_cons_self x xs)
    have hxs : xs.sum = (xs.length : ℚ) * r :=
      ih (fun y hy => h y (List.mem_cons_of_mem x hy))
    simp only [List.sum_cons, hx, hxs, List.length_cons]
    push_cast
    ring

theorem updateMovingAverage_avg_all_eq (r : ℚ) (q : List ℚ) (h : ∀ x ∈ q, x = r) :
    (updateMovingAverage r q).1 = some r := by
  rw [updateMovingAverage_eq]
  have hall := pushTrim_all_eq r q h
  have hsum := sum_all_eq r (pushTrim r q) hall
  have hpos := pushTrim_length_pos r q
  have hne : (((pushTrim r q).length : ℚ)) ≠ 0 := by
    have : (pushTrim r q).length ≠ 0 := by omega
    exact_mod_cast this
  simp only [hsum]
  rw [mul_div_cancel_left₀ _ hne]

theorem foldl_push_length_le (rs : List ℚ) :
    ∀ q : List ℚ, q.length ≤ MOVING_AVERAGE_WINDOW →
      (rs.foldl (fun w r => (updateMovingAverage r w).2) q).length ≤ MOVING_AVERAGE_WINDOW := by
  induction rs with
  | nil => intro q h; simpa using h
  | cons r rs ih =>
    intro q h
    simp only [List.foldl_cons]
    have hstep : (updateMovingAverage r q).2 = pushTrim r q := rfl
    rw [hstep]
    exact ih _ (pushTrim_length_le r q h)

theorem foldl_push_all_eq (r : ℚ) (rs : List ℚ) :
    ∀ q : List ℚ, (∀ x ∈ q, x = r) → (∀ x ∈ rs, x = r) →
      ∀ x ∈ rs.foldl (fun w v => (updateMovingAverage v w).2) q, x = r := by
  induction rs with
  | nil => intro q hq _; simpa using hq
  | cons v vs ih =>
    intro q hq hall
    simp only [List.foldl_cons]
    have hv : v = r := hall v (List.mem_cons_self v vs)
    have hstep : ∀ x ∈ (updateMovingAverage v q).2, x = r := by
      have he : (updateMovingAverage v q).2 = pushTrim v q := rfl
      rw [he, hv]
      exact pushTrim_all_eq r q hq
    exact ih _ hstep (fun x hx => hall x (List.mem_cons_of_mem v hx))

theorem generateRow_sample : generateRow sampleA sampleB [] = (some rowAB, [99 / 89]) := by
  have hA : calculateMidPrice sampleA = 99 := by norm_num [calculateMidPrice, sampleA]
  have hB : calculateMidPrice sampleB = 89 := by norm_num [calculateMidPrice, sampleB]
  have hts : getLatestTimestamp sampleA sampleB = 5 := by
    norm_num [getLatestTimestamp, sampleA, sampleB]
  have hp : pushTrim ((99 : ℚ) / 89) [] = [99 / 89] := by
    norm_num [pushTrim, MOVING_AVERAGE_WINDOW]
  have hsig : generateSignal ((99 : ℚ) / 89) (99 / 89) (21 / 20) (19 / 20) =
      some Signal.HOLD := by
    norm_num [generateSignal]
  rw [generateRow_eq, hA, hB, hp, hts]
  norm_num [rowAB, hsig, THRESHOLD]

theorem generateSignal_isSome (r a ub lb : ℚ) :
    (generateSignal r a ub lb).isSome = true ↔ (r > ub ∨ r < lb) := by
  unfold generateSignal
  split_ifs with h1 h2 h3 <;> simp_all

/-- Claim C2: generateSignal evaluates exactly the four rules in order with
first match winning, all comparisons strict, and a ratio equal to a bound
(with sane bounds) produces no signal. -/
theorem claim_C2 (r a ub lb : ℚ) :
    (generateSignal r a ub lb = some Signal.SELL ↔ r > ub ∧ r > a) ∧
    (generateSignal r a ub lb = some Signal.BUY ↔
      ¬(r > ub ∧ r > a) ∧ (r < lb ∧ r < a)) ∧
    (generateSignal r a ub lb = some Signal.HOLD ↔
      ¬(r > ub ∧ r > a) ∧ ¬(r < lb ∧ r < a) ∧ (r > ub ∨ r < lb)) ∧
    (generateSignal r a ub lb = none ↔ ¬(r > ub ∨ r < lb)) ∧
    ((r = ub ∨ r = lb) → lb ≤ ub → generateSignal r a ub lb = none) := by
  have hmain :
      (generateSignal r a ub lb = some Signal.SELL ↔ r > ub ∧ r > a) ∧
      (generateSignal r a ub lb = some Signal.BUY ↔
        ¬(r > ub ∧ r > a) ∧ (r < lb ∧ r < a)) ∧
      (generateSignal r a ub lb = some Signal.HOLD ↔
        ¬(r > ub ∧ r > a) ∧ ¬(r < lb ∧ r < a) ∧ (r > ub ∨ r < lb)) ∧
      (generateSignal r a ub lb = none ↔ ¬(r > ub ∨ r < lb)) := by
    unfold generateSignal
    split_ifs with h1 h2 h3 <;> simp_all
  refine ⟨hmain.1, hmain.2.1, hmain.2.2.1, hmain.2.2.2, ?_⟩
  intro hr hle
  rw [hmain.2.2.2]
  push_neg
  rcases hr with h | h <;> subst h <;> constructor <;> linarith

/-- Claim C3: for any sequence of pushes starting from the empty window the
window length never exceeds the capacity of 10, and one push on a reachable
window either appends with no eviction or evicts exactly the single oldest
entry. -/
theorem claim_C3 (rs : List ℚ) (r : ℚ) (q : List ℚ)
    (h : q.length ≤ MOVING_AVERAGE_WINDOW) :
    (pushSeq rs).length ≤ MOVING_AVERAGE_WINDOW ∧
    (updateMovingAverage r q).2 =
      (if q.length = MOVING_AVERAGE_WINDOW then q.tail ++ [r] else q ++ [r]) := by
  constructor
  · unfold pushSeq
    exact foldl_push_length_le rs [] (by simp)
  · have h2 : (updateMovingAverage r q).2 = pushTrim r q := rfl
    rw [h2]
    unfold pushTrim
    by_cases hq : q.length = MOVING_AVERAGE_WINDOW
    · rw [if_pos (by simp only [List.length_append, List.length_cons, List.length_nil]; omega),
        if_pos hq]
      cases q with
      | nil =>
        have hW : MOVING_AVERAGE_WINDOW = 10 := rfl
        simp [hW] at hq
      | cons x xs => simp
    · rw [if_neg (by simp only [List.length_append, List.length_cons, List.length_nil]; omega),
        if_neg hq]

/-- Claim C3 witness: concrete instance with three pushes and one push on a
two-element window. -/
theorem claim_C3_witness :
    (pushSeq [1, 2, 3]).length ≤ MOVING_AVERAGE_WINDOW ∧
    (updateMovingAverage 4 ([1, 2] : List ℚ)).2 =
      (if ([1, 2] : List ℚ).length = MOVING_AVERAGE_WINDOW then
        ([1, 2] : List ℚ).tail ++ [4] else ([1, 2] : List ℚ) ++ [4]) :=
  claim_C3 [1, 2, 3] 4 [1, 2] (by decide)

/-- Claim C4: the trigger_alert field of every produced row is the ratio
exactly when the ratio strictly breaches a bound, and absent otherwise. -/
theorem claim_C4 (s0 s1 : ServerRespond) (q : List ℚ) (row : Row) (q2 : List ℚ)
    (h : generateRow s0 s1 q = (some row, q2)) :
    row.trigger_alert =
      (if row.ratio > row.upper_bound ∨ row.ratio < row.lower_bound then some row.ratio
       else none) := by
  rw [generateRow_eq] at h
  rw [Prod.mk.injEq] at h
  obtain ⟨h1, _⟩ := h
  have hrow := Option.some.inj h1
  subst hrow
  rfl

/-- Claim C4 witness: the concrete row produced from sampleA and sampleB
with an empty queue. -/
theorem claim_C4_witness :
    rowAB.trigger_alert =
      (if rowAB.ratio > rowAB.upper_bound ∨ rowAB.ratio < rowAB.lower_bound then
        some rowAB.ratio
       else none) :=
  claim_C4 sampleA sampleB [] rowAB [99 / 89] generateRow_sample

/-- Claim C5: the timestamp of the produced row is the maximum of the two
input timestamps, for every input pair and queue. -/
theorem claim_C5 (s0 s1 : ServerRespond) (q : List ℚ) :
    Option.map (fun row => row.timestamp) (generateRow s0 s1 q).1 =
      some (max s0.timestamp s1.timestamp) := by
  have hmax : getLatestTimestamp s0 s1 = max s0.timestamp s1.timestamp := by
    unfold getLatestTimestamp
    rw [max_def]
    split_ifs <;> omega
  rw [generateRow_eq]
  simp [hmax]

/-- Claim C6 counterexample: on a quote with a negative bid price the code
returns the mid price -1 while the spec contract demands a failure. -/
theorem claim_C6_counterexample :
    calculateMidPrice negQuote = -1 ∧ midPriceContract negQuote = none := by
  constructor
  · norm_num [calculateMidPrice, negQuote]
  · norm_num [midPriceContract, negQuote]

/-- Claim C6 as amended: calculateMidPrice performs no validation; for every
quote, negative prices included, it returns (ask + bid) / 2 and generateRow
consumes the unvalidated mid prices without failing. -/
theorem claim_C6 (s0 s1 : ServerRespond) (q : List ℚ) :
    calculateMidPrice s0 = (s0.top_ask.price + s0.top_bid.price) / 2 ∧
    Option.map (fun row => (row.price_abc, row.price_def)) (generateRow s0 s1 q).1 =
      some (calculateMidPrice s0, calculateMidPrice s1) := by
  refine ⟨rfl, ?_⟩
  rw [generateRow_eq]
  simp

/-- Claim C7: pushing a value into the empty window returns that value as
the average, with the window holding exactly that value. -/
theorem claim_C7 (v : ℚ) : updateMovingAverage v [] = (some v, [v]) := by
  have hp : pushTrim v [] = [v] := by
    unfold pushTrim
    simp [MOVING_AVERAGE_WINDOW]
  rw [updateMovingAverage_eq, hp]
  simp

/-- Claim C8: pushing the constant ratio r capacity times from the empty
window and then once more returns the average r. -/
theorem claim_C8 (r : ℚ) :
    (updateMovingAverage r (pushSeq (List.replicate MOVING_AVERAGE_WINDOW r))).1 = some r := by
  apply updateMovingAverage_avg_all_eq
  unfold pushSeq
  exact foldl_push_all_eq r (List.replicate MOVING_AVERAGE_WINDOW r) [] (by simp)
    (fun x hx => List.eq_of_mem_replicate hx)

/-- Claim C9: in every produced row the trigger_alert and signal fields are
present together, exactly when the ratio strictly breaches a bound. -/
theorem claim_C9 (s0 s1 : ServerRespond) (q : List ℚ) (row : Row) (q2 : List ℚ)
    (h : generateRow s0 s1 q = (some row, q2)) :
    (row.trigger_alert.isSome = true ↔
      (row.ratio > row.upper_bound ∨ row.ratio < row.lower_bound)) ∧
    (row.signal.isSome = true ↔
      (row.ratio > row.upper_bound ∨ row.ratio < row.lower_bound)) := by
  rw [generateRow_eq] at h
  rw [Prod.mk.injEq] at h
  obtain ⟨h1, _⟩ := h
  have hrow := Option.some.inj h1
  subst hrow
  constructor
  · show (if _ then some _ else none).isSome = true ↔ _
    split_ifs with hb <;> simp [hb]
  · simpa using generateSignal_isSome _ _ _ _

/-- Claim C9 witness: the concrete row produced from sampleA and sampleB
with an empty queue has both fields present. -/
theorem claim_C9_witness :
    (rowAB.trigger_alert.isSome = true ↔
      (rowAB.ratio > rowAB.upper_bound ∨ rowAB.ratio < rowAB.lower_bound)) ∧
    (rowAB.signal.isSome = true ↔
      (rowAB.ratio > rowAB.upper_bound ∨ rowAB.ratio < rowAB.lower_bound)) :=
  claim_C9 sampleA sampleB [] rowAB [99 / 89] generateRow_sample

/-- Claim C10: the reduce in updateMovingAverage always acts on a non-empty
window, because the ratio is pushed first; the none branch of the JS reduce
is unreachable and the returned average is always defined. -/
theorem claim_C10 (r : ℚ) (q : List ℚ) :
    1 ≤ (pushTrim r q).length ∧
    reduceSum (pushTrim r q) = some ((pushTrim r q).sum) ∧
    (updateMovingAverage r q).1 =
      some ((pushTrim r q).sum / ((pushTrim r q).length : ℚ)) := by
  refine ⟨pushTrim_length_pos r q, reduceSum_eq_sum _ (pushTrim_ne_nil r q), ?_⟩
  rw [updateMovingAverage_eq]

/-- Claim C1 code behavior: on a pair whose second response has mid price 0
the code raises no error at all; it returns a row and pushes the unguarded
ratio into the moving-average window, which grows by one entry. -/
theorem claim_C1_code_behavior :
    calculateMidPrice zeroMidQuote = 0 ∧
    ((generateRow sampleA zeroMidQuote []).1).isSome = true ∧
    ((generateRow sampleA zeroMidQuote []).2).length = 1 := by
  refine ⟨by norm_num [calculateMidPrice, zeroMidQuote], ?_, ?_⟩
  · rw [generateRow_eq]
    simp
  · rw [generateRow_eq]
    simp [pushTrim_length, MOVING_AVERAGE_WINDOW]

end DataManipulator
